import Mathlib

/-!
# Verification of `pythonrc.py` (lonetwin's pimped-up pythonrc)

A shallow embedding, in Lean 4, of the input-line processing pipeline of
`pythonrc.py`: the completion engine (`ImprovedCompleter`), the indent
tracker and command router (`ImprovedConsole._cmd_handler` / `push`), and
the history/buffer reconciler (`resetbuffer`, `_exec_from_file`,
`process_edit_cmd`, `_doc_to_usage`).

Python strings are modelled as Lean `String`s manipulated through explicit
`List Char` operations mirroring the Python `str` methods used by the code
(`strip`, `rstrip(chars)`, `split`, `startswith`, `endswith`, `replace`,
negative slicing).  The external statement executor
(`code.InteractiveInterpreter.runsource`) is abstracted as a function from
submitted source to one of: "needs more input", or "executed, with an
optional raised exception and an effect on the namespace"; the namespace
itself is a type parameter.  Ghost fields (`submitted`, `written`,
`browsed`) record the observable interactions with the executor, stderr
and the web browser without changing the modelled control flow.
-/

/-! ## Python string primitives -/

/-- The characters Python's default `str.strip` / `str.isspace` / `\s`
treat as whitespace. -/
def pyIsSpace (c : Char) : Bool :=
  c == ' ' || c == '\t' || c == '\n' || c == '\r' || c == '\x0b' || c == '\x0c'

/-- `isPre p l` : the list `p` is a prefix of `l` (models `str.startswith`
after `toList`). -/
def isPre : List Char → List Char → Bool
  | [], _ => true
  | _ :: _, [] => false
  | a :: as, b :: bs => a == b && isPre as bs

/-- Python `s.startswith(p)`. -/
def pyStartsWith (s p : String) : Bool := isPre p.toList s.toList

/-- Python `s.endswith(p)`. -/
def pyEndsWith (s p : String) : Bool := isPre p.toList.reverse s.toList.reverse

/-- Strip, from both ends of a char list, every character satisfying `f`
(the shape of Python `str.strip`). -/
def stripBoth (f : Char → Bool) (l : List Char) : List Char :=
  ((l.dropWhile f).reverse.dropWhile f).reverse

/-- Python `s.strip()` (no argument: strip whitespace from both ends). -/
def pyStrip (s : String) : String := ⟨stripBoth pyIsSpace s.toList⟩

/-- Python `s.lstrip(cs)`: strip any leading characters belonging to `cs`. -/
def pyLstripChars (cs s : String) : String :=
  ⟨s.toList.dropWhile (fun c => cs.toList.contains c)⟩

/-- Python `s.rstrip(cs)`: strip any trailing characters belonging to `cs`. -/
def pyRstripChars (cs s : String) : String :=
  ⟨(s.toList.reverse.dropWhile (fun c => cs.toList.contains c)).reverse⟩

/-- Python `s.strip('\n')`: strip newlines from both ends. -/
def pyStripNl (s : String) : String :=
  ⟨stripBoth (fun c => c == '\n') s.toList⟩

/-- Python `s[:-n]` for `n ≥ 1`: drop the last `n` characters (everything,
when the string is shorter than `n`). -/
def pySliceDropLast (n : Nat) (s : String) : String :=
  ⟨s.toList.take (s.toList.length - n)⟩

/-- Worker for `pySplit`: accumulates the current word (reversed). -/
def pyWordsAux : List Char → List Char → List String
  | [], cur => if cur = [] then [] else [⟨cur.reverse⟩]
  | c :: t, cur =>
    if pyIsSpace c then
      if cur = [] then pyWordsAux t [] else (⟨cur.reverse⟩ : String) :: pyWordsAux t []
    else pyWordsAux t (c :: cur)

/-- Python `s.split()` (no argument: split on whitespace runs, no empty
words). -/
def pySplit (s : String) : List String := pyWordsAux s.toList []

/-- Python `s.partition(sep)[0]` for a one-character separator: the part of
`s` before the first occurrence of `c` (all of `s` if absent). -/
def pyPartitionFst (c : Char) (s : String) : String :=
  ⟨s.toList.takeWhile (fun x => x ≠ c)⟩

/-- Worker for `pyReplace` on char lists, structurally recursive on a fuel
bound (each step consumes at least one character, so fuel = input length
suffices); `pat ≠ []` at every use site. -/
def replaceAllFuel (pat rep : List Char) : Nat → List Char → List Char
  | 0, s => s
  | _ + 1, [] => []
  | fuel + 1, c :: t =>
    if pat ≠ [] ∧ isPre pat (c :: t) then
      rep ++ replaceAllFuel pat rep fuel (t.drop (pat.length - 1))
    else
      c :: replaceAllFuel pat rep fuel t

/-- Python `s.replace(pat, rep)`: replace all (leftmost, non-overlapping)
occurrences. -/
def pyReplace (s pat rep : String) : String :=
  ⟨replaceAllFuel pat.toList rep.toList s.toList.length s.toList⟩

/-- Python `lst[i]` under `try: ... except IndexError: return None`, over a
list that may itself contain `None` entries (the completer's
`self.matches[state]`). -/
def pyIndex : List (Option String) → Nat → Option String
  | [], _ => none
  | a :: _, 0 => a
  | _ :: t, n + 1 => pyIndex t n

/-- Python truthiness of `s.isspace()`: nonempty and all whitespace. -/
def pyIsSpaceStr (s : String) : Bool :=
  !(s.toList = []) && s.toList.all pyIsSpace

/-! ## Configuration (the `config` SimpleNamespace, defaults as shipped) -/

/-- `config.ONE_INDENT`. -/
def oneIndent : String := "    "

/-- `config.DOC_CMD`. -/
def docCmd : String := "?"

/-- `config.EDIT_CMD` (`r'\e'`). -/
def editCmd : String := "\\e"

/-- `config.LIST_CMD` (`r'\l'`). -/
def listCmd : String := "\\l"

/-- `config.SH_EXEC`. -/
def shExec : String := "!"

/-- `config.HELP_CMD` (`r'\h'`). -/
def helpCmd : String := "\\h"

/-- `config.TOGGLE_AUTO_INDENT_CMD` (`r'\\'`, i.e. two backslash characters). -/
def toggleCmd : String := "\\\\"

/-- `os.path.sep` on the POSIX systems the script targets. -/
def pathSep : String := "/"

/-- Python 3's `keyword.kwlist`. -/
def pyKwlist : List String :=
  ["False", "None", "True", "and", "as", "assert", "async", "await",
   "break", "class", "continue", "def", "del", "elif", "else", "except",
   "finally", "for", "from", "global", "if", "import", "in", "is",
   "lambda", "nonlocal", "not", "or", "pass", "raise", "return", "try",
   "while", "with", "yield"]

/-- Python `keyword.iskeyword`. -/
def pyIsKeyword (s : String) : Bool := pyKwlist.contains s

/-! ## The completion engine (`ImprovedCompleter`)

The environment bundles the external collaborators the completer queries:
the module/package tables built by `pkgutil`/`importlib`, the live-object
matchers inherited from `rlcompleter` (which catch their own exceptions and
return plain lists), the filesystem (`glob.iglob`, `os.path.isdir`,
`os.path.expanduser`), and the runtime exception-class hierarchy.
`importModule` returns `none` when `importlib.import_module` would raise.
-/

/-- A node of the runtime exception-class hierarchy: a class name together
with its `__subclasses__()` list.  Multiple inheritance duplicates the
shared subclass under each of its bases, exactly as `__subclasses__`
reports it. -/
inductive ExcNode where
  | mk (name : String) (subs : List ExcNode)

/-- The class's `__name__`. -/
def ExcNode.name : ExcNode → String
  | .mk n _ => n

mutual

/-- `ImprovedCompleter.exceptions`: the names of the direct subclasses,
followed by the recursively collected names under each subclass, in
order.  No deduplication. -/
def excNames : ExcNode → List String
  | .mk _ subs => subs.map ExcNode.name ++ excNamesAll subs

/-- Worker for `excNames` over a `__subclasses__()` list. -/
def excNamesAll : List ExcNode → List String
  | [] => []
  | n :: t => excNames n ++ excNamesAll t

end

/-- The exceptions the completer can let escape to its caller:
`AttributeError` from `None.append(...)` when `get_import_matches` falls
through every branch, `ImportError` propagating out of
`importlib.import_module`, and `TypeError` from subscripting a poisoned
(`None`) `self.matches`. -/
inductive PyErr where
  | attributeError
  | importError
  | typeError
deriving DecidableEq, Repr

/-- The completer's external collaborators (see module comment). -/
structure CompleterEnv where
  /-- `self.pkglist`: names of top-level packages. -/
  pkglist : List String
  /-- `self.modlist`: importable module names not starting with `_`. -/
  modlist : List String
  /-- `self.pkg_contents(pkg)`: dotted sub-module names of a package. -/
  pkgContents : String → List String
  /-- `importlib.import_module(ns)` followed by
  `getattr(mod, '__all__', dir(mod))`; `none` models a raised
  `ImportError`. -/
  importModule : String → Option (List String)
  /-- `rlcompleter.Completer.global_matches` (total: never raises). -/
  globalMatches : String → List String
  /-- `rlcompleter.Completer.attr_matches` (total: catches its own
  exceptions and returns `[]`). -/
  attrMatches : String → List String
  /-- `glob.iglob(pattern)`, consumed into a list. -/
  iglob : String → List String
  /-- `os.path.isdir`. -/
  isdir : String → Bool
  /-- `os.path.expanduser`. -/
  expanduser : String → String
  /-- `config.COMPLETION_EXPANDS_TILDE`. -/
  expandsTilde : Bool
  /-- The `Exception` class with its transitive `__subclasses__` tree. -/
  excRoot : ExcNode

/-- `ImprovedCompleter.startswith_filter(text, names, striptext)`. -/
def startswithFilter (text : String) (names : List String)
    (striptext : Option String) : List String :=
  let filtered := names.filter (fun name => pyStartsWith name text)
  match striptext with
  | some st =>
    -- `if striptext:` — Python truthiness: non-None and nonempty
    if st ≠ "" then filtered.map (fun name => pyReplace name st "") else filtered
  | none => filtered

/-- `ImprovedCompleter.get_path_matches(text)`. -/
def getPathMatches (env : CompleterEnv) (text : String) : List String :=
  (env.iglob (text ++ "**")).map
    (fun item => if env.isdir item then item ++ pathSep else item)

/-- `ImprovedCompleter.get_import_matches(text, words)`.  The result is
`Except`-in-`Option` shaped exactly like the Python function: `.error`
models a raised exception, `.ok none` models falling off the end of the
function (an implicit `return None`). -/
def getImportMatches (env : CompleterEnv) (text : String)
    (words : List String) : Except PyErr (Option (List String)) :=
  if (words.length = 2 ∧ text = "") ∨
     (words.length = 3 ∧ text ≠ "" ∧ pyStartsWith "import" text) then
    .ok (some ["import "])
  else if words.length ≤ 2 then
    -- import p<tab> / from p<tab>
    let modname := pyPartitionFst '.' text
    if modname ∈ env.pkglist then
      .ok (some (startswithFilter text (env.pkgContents modname) none))
    else
      .ok (some (startswithFilter text env.modlist none))
  else if words.length ≥ 3 ∧ words.getD 2 "" = "import" then
    -- from pkg.sub import na<tab>
    let nsName := words.getD 1 ""
    let pkg := pyPartitionFst '.' nsName
    let viaPkg : Option (List String) :=
      if pkg ∈ env.pkglist then
        let matchText := nsName ++ "." ++ text
        let ms := startswithFilter matchText (env.pkgContents pkg) (some (nsName ++ "."))
        if ms ≠ [] then some ms else none
      else none
    match viaPkg with
    | some ms => .ok (some ms)
    | none =>
      -- from module import na<tab>
      match env.importModule nsName with
      | none => .error .importError
      | some members => .ok (some (startswithFilter text members none))
  else
    .ok none

/-- The `state == 0` candidate construction inside
`ImprovedCompleter.complete`: the five-way branch on line content. -/
def buildMatches (env : CompleterEnv) (text line : String)
    (words : List String) : Except PyErr (Option (List String)) :=
  if pyStartsWith line "from " ∨ pyStartsWith line "import " then
    getImportMatches env text words
  else if words.getD 0 "" = "raise" ∨ words.getD 0 "" = "except" then
    .ok (some (startswithFilter (pyLstripChars "(" text) (excNames env.excRoot) none))
  else if text.toList.contains '/' then
    .ok (some (getPathMatches env
      (if env.expandsTilde then env.expanduser text else text)))
  else if text.toList.contains '.' then
    .ok (some (env.attrMatches text))
  else
    .ok (some (env.globalMatches text))

/-- `ImprovedCompleter.complete(text, state, line)`.

The first component of the result is the new `self.matches` store
(`none` models Python `None` having been assigned to it); the second is
the returned candidate, or the exception the call raises.  `line` is the
effective line buffer (`readline.get_line_buffer()` when the Python
argument is falsy).  The `self.matches[-1] is None` block is transcribed
even though a freshly built candidate list never ends in `None`. -/
def complete (env : CompleterEnv) (matches0 : Option (List (Option String)))
    (text : String) (state : Nat) (line : String) :
    Option (List (Option String)) × Except PyErr (Option String) :=
  if line = "" ∨ pyIsSpaceStr line then
    (matches0, .ok (if state ≠ 0 then none else some oneIndent))
  else
    let words := pySplit line
    if state = 0 then
      match buildMatches env text line words with
      | .error e => (matches0, .error e)       -- raised before `self.matches` is assigned
      | .ok none => (none, .error .attributeError)  -- `None.append(None)`
      | .ok (some ms) =>
        let m1 : List (Option String) := ms.map some
        let m2 :=
          if m1 ≠ [] ∧ m1.getLast? = some none then
            let mtch := m1.getD 0 none
            let mA :=
              if (mtch.map pyIsKeyword).getD false
                 && (mtch == some "raise" || mtch == some "except") then
                (excNames env.excRoot).map some
              else m1
            if (mtch.map (fun m => m != "" && pyEndsWith m pathSep)).getD false then
              (getPathMatches env (mtch.getD "")).map some
            else mA
          else m1
        let mFin := m2 ++ [none]
        (some mFin, .ok (pyIndex mFin state))
    else
      match matches0 with
      | none => (none, .error .typeError)      -- `None[state]`
      | some stored => (matches0, .ok (pyIndex stored state))

/-! ## The console (`ImprovedConsole`) -/

/-- The mutable state of an `ImprovedConsole`, over an abstract namespace
type `σ` (`self.locals`).  `submitted`, `written` and `browsed` are ghost
logs of the sources handed to `runsource`, the text written to stderr, and
the queries opened in the web browser. -/
structure PyState (σ : Type) where
  /-- `self.session_history`. -/
  sessionHistory : List String := []
  /-- `self.buffer` (inherited from `InteractiveConsole`). -/
  buffer : List String := []
  /-- `self._indent`. -/
  indent : String := ""
  /-- `self.locals`, abstracted. -/
  ns : σ
  /-- `self._skip_subsequent`. -/
  skip : Bool := false
  /-- `config.AUTO_INDENT` (a runtime toggle). -/
  autoIndent : Bool := true
  /-- Ghost: every source string passed to `runsource`, in order. -/
  submitted : List String := []
  /-- Ghost: messages written to stderr (color codes elided). -/
  written : List String := []
  /-- Ghost: search queries opened with `webbrowser.open`. -/
  browsed : List String := []
deriving Repr

/-- The outcome of `code.InteractiveInterpreter.runsource` on one source
string: either the statement is incomplete (more input required), or it
was compiled and run — `err` records whether running it raised (in which
case the console's overridden `showtraceback` fires), `eff` its effect on
the namespace. -/
inductive RunRes (σ : Type) where
  | more
  | done (err : Bool) (eff : σ → σ)

/-- The external statement executor: what `runsource` answers for each
submitted source string. -/
def Executor (σ : Type) := String → RunRes σ

/-- `self.runsource(source, self.filename)` as the console observes it:
logs the source, applies the executor, and — via the overridden
`showtraceback` — latches `_skip_subsequent` when the executed statement
raises. -/
def pyRunsource {σ : Type} (E : Executor σ) (st : PyState σ) (source : String) :
    Bool × PyState σ :=
  let st1 := { st with submitted := st.submitted ++ [source] }
  match E source with
  | .more => (true, st1)
  | .done err eff => (false, { st1 with ns := eff st1.ns, skip := st1.skip || err })

/-- The loop body of `ImprovedConsole.resetbuffer`: append each buffer
line to the session history unless it is a blank whose predecessor
(stripped) was also blank — `if stripped or stripped != previous`. -/
def collapseLines (previous : String) : List String → List String
  | [] => []
  | line :: rest =>
    let stripped := pyStrip line
    if stripped ≠ "" ∨ stripped ≠ previous then
      line :: collapseLines stripped rest
    else
      collapseLines stripped rest

/-- `ImprovedConsole.resetbuffer`: clear the indent, flush the buffer into
the session history with consecutive blanks collapsed, then clear the
buffer (the `super()` call). -/
def resetbuffer {σ : Type} (st : PyState σ) : PyState σ :=
  { st with indent := "",
            sessionHistory := st.sessionHistory ++ collapseLines "" st.buffer,
            buffer := [] }

/-- `code.InteractiveConsole.push` (the `super()` push): append the line
to the buffer, submit the joined buffer to `runsource`, and reset the
buffer when the statement completed. -/
def basePush {σ : Type} (E : Executor σ) (st : PyState σ) (line : String) :
    Bool × PyState σ :=
  let st1 := { st with buffer := st.buffer ++ [line] }
  let source := String.intercalate "\n" st1.buffer
  let (more, st2) := pyRunsource E st1 source
  if more then (true, st2) else (false, resetbuffer st2)

/-- `line.endswith((':', '[', '{', '('))`. -/
def endsWithOpen (line : String) : Bool :=
  pyEndsWith line ":" || pyEndsWith line "[" || pyEndsWith line "\x7b" ||
    pyEndsWith line "("

/-- `ImprovedConsole.push`: the `super()` push, plus the indent tracker —
grow the indent by one unit when the statement is still open and the line
ends in an opening token, reset it when the statement completed. -/
def push {σ : Type} (E : Executor σ) (st : PyState σ) (line : String) :
    Bool × PyState σ :=
  let (more, st1) := basePush E st line
  if more then
    if endsWithOpen line then
      (true, { st1 with indent := st1.indent ++ oneIndent })
    else (true, st1)
  else (false, { st1 with indent := "" })

/-! ## Replay (`ImprovedConsole._exec_from_file`) -/

/-- The flush guard of the replay loop: `line and not line[0].isspace()`
— a nonempty newline-stripped line whose first character is not
whitespace ends the previous statement. -/
def flushTrigger (line : String) : Prop :=
  line ≠ "" ∧ ¬(pyIsSpace (line.toList.headD ' ') = true)

instance (line : String) : Decidable (flushTrigger line) := by
  unfold flushTrigger
  infer_instance

/-- One iteration of the `for stmt in open_fd` loop of `_exec_from_file`.
The folded accumulator carries the console state and the `previous`
stripped line.  Faithful details: a comment line `continue`s *before*
`previous` is updated; the flush of the pending buffer happens only while
no error has been seen, and is triggered by a nonempty line whose first
character is not whitespace; after an error every surviving line is
appended to the session history verbatim instead of the buffer. -/
def execStep {σ : Type} (E : Executor σ) (quiet skipHistory printComments : Bool)
    (acc : PyState σ × String) (stmt : String) : PyState σ × String :=
  let st := acc.1
  let previous := acc.2
  let stripped := pyStrip stmt
  if stripped = "" ∧ previous = "" then
    -- skip over multiple empty lines
    (st, previous)
  else if pyStartsWith stripped "#" then
    -- comment: print (if required) and move on without touching `previous`
    (if printComments ∧ ¬quiet
       then { st with written := st.written ++ ["... " ++ stmt] } else st,
     previous)
  else
    let line := pyStripNl stmt
    -- process line only if we haven't encountered an error yet
    let st1 :=
      if ¬st.skip ∧ flushTrigger line then
        -- end of previous statement: submit buffer for execution
        let source := String.intercalate "\n" st.buffer
        let (more, st') := pyRunsource E st source
        if more then st' else resetbuffer st'
      else st
    let st2 :=
      if ¬quiet then { st1 with written := st1.written ++ ["... " ++ stmt] }
      else st1
    if st2.skip then
      ({ st2 with sessionHistory := st2.sessionHistory ++ [stmt] }, stripped)
    else
      -- (readline.add_history is external and not modelled)
      ({ st2 with buffer := st2.buffer ++ [line] }, stripped)

/-- `ImprovedConsole._exec_from_file(open_fd, ...)`: reset the error
latch, run the loop with `previous = ''`, then `self.push('')`. -/
def execFromFile {σ : Type} (E : Executor σ) (stmts : List String)
    (st : PyState σ) (quiet skipHistory printComments : Bool) : PyState σ :=
  let st0 := { st with skip := false }
  let r := stmts.foldl (execStep E quiet skipHistory printComments) (st0, "")
  (push E r.1 "").2

/-- The lines of a replayed file that the error-skip mode captures: every
line except comments and collapsed blanks, tracked against the running
`previous` stripped line (comments leave `previous` untouched). -/
def skipCaptured (previous : String) : List String → List String
  | [] => []
  | stmt :: rest =>
    let stripped := pyStrip stmt
    if stripped = "" ∧ previous = "" then skipCaptured previous rest
    else if pyStartsWith stripped "#" then skipCaptured previous rest
    else stmt :: skipCaptured stripped rest

/-! ## The command router (`ImprovedConsole._cmd_handler`) -/

/-- The trigger tokens of `self.commands`, in insertion order — the
alternation order of `self.commands_re`. -/
def cmdTriggers : List String := [editCmd, listCmd, shExec, helpCmd, toggleCmd]

/-- `self.commands_re.match(line)`: the first trigger that matches at the
start of the line, with the rest of the line — whitespace skipped (`\s*`),
then everything up to the first `(` (`[^(]*`) — as the argument. -/
def cmdMatch (line : String) : Option (String × String) :=
  match cmdTriggers.find? (fun c => pyStartsWith line c) with
  | none => none
  | some c =>
    let rest := (line.toList.drop c.toList.length).dropWhile pyIsSpace
    some (c, ⟨rest.takeWhile (fun x => x ≠ '(')⟩)

/-- `ImprovedConsole._cmd_handler(line)`.  The command handlers themselves
are a parameter `H` (they may mutate the console state and return the
replacement line, `none` modelling a Python handler returning `None`); the
doc-lookup rewriting, the auto-indent tracking and the `%` fallback are
transcribed.  The result is the state plus the line fed onward
(`return line or ''`). -/
def cmdHandler {σ : Type}
    (H : String → String → PyState σ → PyState σ × Option String)
    (st : PyState σ) (line : String) : PyState σ × String :=
  match cmdMatch line with
  | some (c, args) =>
    let r := H c args st
    (r.1, match r.2 with | some s => s | none => "")
  | none =>
    if pyEndsWith line docCmd then
      if pyEndsWith line (docCmd ++ docCmd) then
        -- search for line in online docs
        let q := pyReplace (pyRstripChars (docCmd ++ ".(") line) "." "+"
        ({ st with browsed := st.browsed ++ [q] }, "")
      else
        let t := pyRstripChars (docCmd ++ ".(") line
        let newLine :=
          if t = "" then "dir()"
          else if pyIsKeyword t then "help(\"" ++ t ++ "\")"
          else "print(" ++ t ++ ".__doc__)"
        (st, newLine)
    else if st.autoIndent = true ∧
            (pyStartsWith line oneIndent = true ∨ st.indent ≠ "") then
      if pyStrip line ≠ "" then
        -- non-empty line with an indent: adopt a changed indent level.
        -- `line[:line.index(line.lstrip()[0])]` is the leading whitespace:
        -- the first non-whitespace character cannot occur earlier.
        let leadingSpace : String := ⟨line.toList.takeWhile pyIsSpace⟩
        (if st.indent ≠ leadingSpace then { st with indent := leadingSpace }
         else st,
         line)
      else
        -- empty line: decrease indent (`self._indent[:-len(config.ONE_INDENT)]`)
        let newIndent := pySliceDropLast oneIndent.toList.length st.indent
        ({ st with indent := newIndent }, newIndent)
    else if pyStartsWith line "%" then
      ({ st with written := st.written ++ ["Y U NO LIKE ME?"] }, line)
    else
      (st, line)

/-! ## Session-history serialization (`process_edit_cmd`, no-argument form) -/

/-- The per-line serialization of
`f'# {line}' if line.strip() else ''` over `line.strip('\n')`. -/
def editCommentLine (line : String) : String :=
  let l := pyStripNl line
  if pyStrip l ≠ "" then "# " ++ l else ""

/-- The lines `process_edit_cmd` hands to `_mktemp_buffer` when invoked
without an argument: `history = self.session_history or open(config.HISTFILE)`
(Python `or`: the persisted history file is used exactly when the session
history is an empty — falsy — list), each line newline-stripped and
commented when non-blank. -/
def mkEditBufferLines (sessionHistory histfileLines : List String) :
    List String :=
  let history := if sessionHistory = [] then histfileLines else sessionHistory
  history.map editCommentLine

/-- `ImprovedConsole._mktemp_buffer`: the temp file holds
`'\n'.join(lines)`. -/
def mktempBufferContent (lines : List String) : String :=
  String.intercalate "\n" lines

/-! ## Help output (`ImprovedConsole._doc_to_usage`) -/

/-- What a `@_doc_to_usage`-decorated handler does with its argument. -/
inductive HandlerAction where
  | help (text : String)
  | run (arg : String)
deriving DecidableEq, Repr

/-- `blue(text)` with the default `bold=True`:
`'\033[1;34m' + text + '\033[0m'`. -/
def blueWrap (s : String) : String := "\x1b[1;34m" ++ s ++ "\x1b[0m"

/-- `_doc_to_usage(method)`'s `inner`: strip the argument; on a `-h` /
`--help` prefix, write the method's docstring — `blue(method.__doc__.strip())`,
with no formatting applied — instead of running the handler. -/
def docToUsage (doc : String) (arg : String) : HandlerAction :=
  let a := pyStrip arg
  if pyStartsWith a "-h" || pyStartsWith a "--help" then
    .help (blueWrap (pyStrip doc))
  else
    .run a

/-- The docstring of `toggle_auto_indent`, verbatim (braces written as
`\x7b`/`\x7d`): a plain — not `f` — string, so the placeholder is literal
text. -/
def toggleAutoIndentDoc : String :=
  "\x7bconfig.TOGGLE_AUTO_INDENT_CMD\x7d - Toggles the auto-indentation behavior\n        "

/-- Modelled from the spec: the help text the spec says a handler prints —
"its own docstring formatted with the live configuration values", i.e.
`method.__doc__.format(config=config)`, which for `toggle_auto_indent`
substitutes the configured trigger for the placeholder. -/
def toggleAutoIndentDocFormatted : String :=
  pyReplace toggleAutoIndentDoc "\x7bconfig.TOGGLE_AUTO_INDENT_CMD\x7d" toggleCmd

/-! ## Predicates used by the stated properties -/

/-- A session-history entry is blank when it strips to the empty string. -/
def blankB (s : String) : Bool := pyStrip s == ""

/-- No two consecutive entries of the list are both blank. -/
def noTwoBlank : List String → Bool
  | a :: b :: t => !(blankB a && blankB b) && noTwoBlank (b :: t)
  | _ => true

/-- The head of the list, if any, is not blank. -/
def headOk : List String → Bool
  | [] => true
  | a :: _ => !blankB a

/-- The list is nonempty and its last entry is not blank. -/
def lastOk (l : List String) : Bool :=
  match l.getLast? with
  | some a => !blankB a
  | none => false

/-- The invariant threaded through the `_exec_from_file` loop: the session
history has no two consecutive blanks, and — while the error latch is set
with a non-blank `previous` — the last history entry is the (non-blank)
line that set `previous`, so a blank may safely be appended after it. -/
def histInv {σ : Type} (st : PyState σ) (previous : String) : Prop :=
  noTwoBlank st.sessionHistory = true ∧
    (st.skip = true → previous ≠ "" → lastOk st.sessionHistory = true)

/-- The last non-whitespace character of a string, if any (the notion the
specification's indent rule is phrased in). -/
def lastNonWsChar (s : String) : Option Char :=
  (s.toList.reverse.dropWhile pyIsSpace).head?

/-! ## Concrete fixtures -/

/-- A fresh console state over the trivial namespace. -/
def pyStateUnit : PyState Unit := { ns := () }

/-- A handler table that runs nothing and returns `None`, for exercising
the non-command paths of the router. -/
def Htriv : String → String → PyState Unit → PyState Unit × Option String :=
  fun _ _ st => (st, none)

/-- A completer environment with an exception hierarchy in which class `D`
multiply inherits from `B` and `C` (so `__subclasses__` reports it under
both), and trivial module/filesystem collaborators. -/
def toyEnv : CompleterEnv :=
  { pkglist := [], modlist := [], pkgContents := fun _ => [],
    importModule := fun _ => none, globalMatches := fun _ => [],
    attrMatches := fun _ => [], iglob := fun _ => [], isdir := fun _ => false,
    expanduser := fun t => t, expandsTilde := true,
    excRoot := .mk "Exception" [.mk "B" [.mk "D" []], .mk "C" [.mk "D" []]] }

/-- The candidate store the completer builds for `raise <tab>` under
`toyEnv`: the duplicated `D` plus the `None` sentinel. -/
def dupMatches : List (Option String) :=
  [some "B", some "C", some "D", some "D", none]

/-- An executor over an association-list namespace for the replay
scenario: `1 + "2"` raises (a `TypeError`), `x = 5` would bind `x`. -/
def Ec : Executor (List (String × Nat)) := fun s =>
  if s = "1 + \"2\"" then .done true id
  else if s = "x = 5" then .done false (fun n => ("x", 5) :: n)
  else .done false id

/-- The fresh console state for the replay scenario. -/
def stC : PyState (List (String × Nat)) := { ns := [] }

/-- A mid-replay state in which an executed statement has just reported an
error: the erroring line is in the history and the latch is set. -/
def stSkip : PyState (List (String × Nat)) :=
  { ns := [("y", 1)], skip := true, sessionHistory := ["1 + \"2\""] }

/-- A console state with a buffer containing blank runs, for exercising
`resetbuffer`'s collapse. -/
def stBuf : PyState (List (String × Nat)) :=
  { ns := [], sessionHistory := ["a"], buffer := ["x = 1", "", "   ", "y = 2"] }

/-- An executor that answers "more input needed" for the nested
`class Foo:` / `def m():` / `pass` prefixes, as CPython's `codeop` does. -/
def E4 : Executor Unit := fun s =>
  if s = "class Foo:" then .more
  else if s = "class Foo:\n    def m():" then .more
  else if s = "class Foo:\n    def m():\n        pass" then .more
  else .done false id

/-- An executor that answers "more input needed" for `if True: ` (a
trailing space does not change CPython's incomplete-statement answer). -/
def Ecex : Executor Unit := fun s =>
  if s = "if True: " then .more else .done false id

/-! ## Helper lemmas about the string primitives -/

/-- A string is empty exactly when its character list is. -/
theorem string_eq_empty_iff (s : String) : s = "" ↔ s.toList = [] := by
  cases s with
  | mk data =>
    constructor
    · intro h
      rw [h]
      rfl
    · intro h
      have hd : data = [] := h
      rw [hd]

/-- `isPre` pins the head of the longer list. -/
theorem isPre_head {c : Char} {cs l : List Char} (h : isPre (c :: cs) l = true) :
    l.head? = some c := by
  cases l with
  | nil => simp [isPre] at h
  | cons b bs =>
    simp only [isPre, Bool.and_eq_true, beq_iff_eq] at h
    simp [h.1]

/-- Over an all-whitespace list, the head of any prefix is whitespace. -/
theorem all_head {p : Char → Bool} {l : List Char} {c : Char}
    (hall : l.all p = true) (hh : l.head? = some c) : p c = true := by
  cases l with
  | nil => simp at hh
  | cons b bs =>
    simp only [List.head?_cons, Option.some.injEq] at hh
    subst hh
    simp only [List.all_cons, Bool.and_eq_true] at hall
    exact hall.1

/-- A string of only whitespace starts with no string whose first
character is non-whitespace. -/
theorem pyStartsWith_false_of_blank (line p : String) (c : Char) (cs : List Char)
    (hb : line.toList.all pyIsSpace = true) (hp : p.toList = c :: cs)
    (hc : pyIsSpace c = false) : pyStartsWith line p = false := by
  by_contra h
  have h' : isPre (c :: cs) line.toList = true := by
    have := Bool.of_not_eq_false h
    rwa [pyStartsWith, hp] at this
  have := all_head hb (isPre_head h')
  rw [hc] at this
  exact Bool.false_ne_true this

/-- A string of only whitespace ends with no string whose last character
is non-whitespace. -/
theorem pyEndsWith_false_of_blank (line p : String) (c : Char) (cs : List Char)
    (hb : line.toList.all pyIsSpace = true) (hp : p.toList.reverse = c :: cs)
    (hc : pyIsSpace c = false) : pyEndsWith line p = false := by
  by_contra h
  have h' : isPre (c :: cs) line.toList.reverse = true := by
    have := Bool.of_not_eq_false h
    rwa [pyEndsWith, hp] at this
  have hrev : line.toList.reverse.all pyIsSpace = true := by
    rw [List.all_reverse]
    exact hb
  have := all_head hrev (isPre_head h')
  rw [hc] at this
  exact Bool.false_ne_true this

/-- `startswith` pins the head of the string. -/
theorem head_eq_of_pyStartsWith (line p : String) (c : Char) (cs : List Char)
    (h : pyStartsWith line p = true) (hp : p.toList = c :: cs) :
    line.toList.head? = some c := by
  rw [pyStartsWith, hp] at h
  exact isPre_head h

/-- No command trigger matches a line whose first character is neither a
backslash nor `!`. -/
theorem cmdMatch_eq_none_of_head {line : String} {c : Char}
    (hh : line.toList.head? = some c) (h1 : c ≠ '\\') (h2 : c ≠ '!') :
    cmdMatch line = none := by
  rw [cmdMatch]
  have hfind : cmdTriggers.find? (fun t => pyStartsWith line t) = none := by
    rw [List.find?_eq_none]
    intro t ht hst
    have hst' : pyStartsWith line t = true := hst
    simp only [cmdTriggers, editCmd, listCmd, shExec, helpCmd, toggleCmd,
      List.mem_cons, List.not_mem_nil, or_false] at ht
    rcases ht with h | h | h | h | h <;> subst h
    · have hx := head_eq_of_pyStartsWith line "\\e" '\\' ['e'] hst' rfl
      rw [hh] at hx
      exact h1 (Option.some.inj hx)
    · have hx := head_eq_of_pyStartsWith line "\\l" '\\' ['l'] hst' rfl
      rw [hh] at hx
      exact h1 (Option.some.inj hx)
    · have hx := head_eq_of_pyStartsWith line "!" '!' [] hst' rfl
      rw [hh] at hx
      exact h2 (Option.some.inj hx)
    · have hx := head_eq_of_pyStartsWith line "\\h" '\\' ['h'] hst' rfl
      rw [hh] at hx
      exact h1 (Option.some.inj hx)
    · have hx := head_eq_of_pyStartsWith line "\\\\" '\\' ['\\'] hst' rfl
      rw [hh] at hx
      exact h1 (Option.some.inj hx)
  rw [hfind]

/-- No command trigger matches an all-whitespace line. -/
theorem cmdMatch_eq_none_of_blank {line : String}
    (hb : line.toList.all pyIsSpace = true) : cmdMatch line = none := by
  rw [cmdMatch]
  have hfind : cmdTriggers.find? (fun t => pyStartsWith line t) = none := by
    rw [List.find?_eq_none]
    intro t ht hst
    have hst' : pyStartsWith line t = true := hst
    simp only [cmdTriggers, editCmd, listCmd, shExec, helpCmd, toggleCmd,
      List.mem_cons, List.not_mem_nil, or_false] at ht
    rcases ht with h | h | h | h | h <;> subst h
    · rw [pyStartsWith_false_of_blank line "\\e" '\\' ['e'] hb rfl (by decide)] at hst'
      exact Bool.false_ne_true hst'
    · rw [pyStartsWith_false_of_blank line "\\l" '\\' ['l'] hb rfl (by decide)] at hst'
      exact Bool.false_ne_true hst'
    · rw [pyStartsWith_false_of_blank line "!" '!' [] hb rfl (by decide)] at hst'
      exact Bool.false_ne_true hst'
    · rw [pyStartsWith_false_of_blank line "\\h" '\\' ['h'] hb rfl (by decide)] at hst'
      exact Bool.false_ne_true hst'
    · rw [pyStartsWith_false_of_blank line "\\\\" '\\' ['\\'] hb rfl (by decide)] at hst'
      exact Bool.false_ne_true hst'
  rw [hfind]

/-- `matches[state]` is `None` from `state = len(matches)` on. -/
theorem pyIndex_ge {l : List (Option String)} {n : Nat} (h : l.length ≤ n) :
    pyIndex l n = none := by
  induction l generalizing n with
  | nil => cases n <;> rfl
  | cons a t ih =>
    cases n with
    | zero => simp at h
    | succ m =>
      simp only [List.length_cons, Nat.succ_le_succ_iff] at h
      exact ih h

/-- If stripping `f`-characters from both ends leaves nothing, the whole
list satisfied `f`. -/
theorem all_of_stripBoth_eq_nil {f : Char → Bool} {l : List Char}
    (h : stripBoth f l = []) : l.all f = true := by
  rw [stripBoth, List.reverse_eq_nil_iff, List.dropWhile_eq_nil_iff] at h
  have hdrop : ∀ x ∈ l.dropWhile f, f x := by
    intro x hx
    exact h x (List.mem_reverse.mpr hx)
  rw [List.all_eq_true]
  intro x hx
  rw [← List.takeWhile_append_dropWhile f l, List.mem_append] at hx
  rcases hx with hx | hx
  · exact List.mem_takeWhile_imp hx
  · exact hdrop x hx

/-- Membership survives stripping from both ends. -/
theorem mem_of_mem_stripBoth {f : Char → Bool} {l : List Char} {x : Char}
    (h : x ∈ stripBoth f l) : x ∈ l := by
  rw [stripBoth, List.mem_reverse] at h
  have h1 : x ∈ (l.dropWhile f).reverse := List.Sublist.mem h (List.dropWhile_sublist f)
  rw [List.mem_reverse] at h1
  exact List.Sublist.mem h1 (List.dropWhile_sublist f)

/-- An all-whitespace string strips to the empty string, and conversely. -/
theorem pyStrip_eq_empty_iff (s : String) :
    pyStrip s = "" ↔ s.toList.all pyIsSpace = true := by
  constructor
  · intro h
    exact all_of_stripBoth_eq_nil ((string_eq_empty_iff _).mp h)
  · intro h
    rw [string_eq_empty_iff]
    show stripBoth pyIsSpace s.toList = []
    rw [stripBoth]
    have h1 : s.toList.dropWhile pyIsSpace = [] := by
      rw [List.dropWhile_eq_nil_iff]
      intro x hx
      exact (List.all_eq_true.mp h) x hx
    rw [h1]
    rfl

/-- A statement whose newline-stripped form starts with a non-whitespace
character does not strip to blank. -/
theorem pyStrip_ne_empty_of_head {stmt : String}
    (h1 : pyStripNl stmt ≠ "")
    (h2 : pyIsSpace ((pyStripNl stmt).toList.headD ' ') = false) :
    pyStrip stmt ≠ "" := by
  intro hblank
  have hall : stmt.toList.all pyIsSpace = true := (pyStrip_eq_empty_iff stmt).mp hblank
  have hne : (pyStripNl stmt).toList ≠ [] := fun h => h1 ((string_eq_empty_iff _).mpr h)
  cases hl : (pyStripNl stmt).toList with
  | nil => exact hne hl
  | cons c rest =>
    have hc : pyIsSpace c = false := by
      rw [hl] at h2
      exact h2
    have hmem : c ∈ stmt.toList := by
      have : c ∈ (pyStripNl stmt).toList := by
        rw [hl]
        exact List.mem_cons_self c rest
      exact mem_of_mem_stripBoth this
    have := (List.all_eq_true.mp hall) c hmem
    rw [hc] at this
    exact Bool.false_ne_true this

/-! ## Claims -/

/-- C2, counterexample: with an empty session history the previous
session's persisted log is serialized, but *commented* — for a history
file containing `x = 42`, the temp-file line is `# x = 42`, not the
uncommented `x = 42` the claim asserts. -/
theorem c2_fallback_commented_cex :
    mkEditBufferLines [] ["x = 42\n"] = ["# x = 42"] ∧
      mkEditBufferLines [] ["x = 42\n"] ≠ ["x = 42"] := by
  constructor
  · rfl
  · decide

/-- C2, amended: the no-argument edit command serializes the current
session history when it is non-empty, and the previous session's persisted
history file when it is empty; in *both* cases every non-blank line is
newline-stripped and prefixed with the comment marker `# `. -/
theorem c2_edit_serialize_commented (sessionHistory histfileLines : List String) :
    (sessionHistory ≠ [] →
      ∀ l ∈ sessionHistory, pyStrip (pyStripNl l) ≠ "" →
        ("# " ++ pyStripNl l) ∈ mkEditBufferLines sessionHistory histfileLines) ∧
    (sessionHistory = [] →
      ∀ l ∈ histfileLines, pyStrip (pyStripNl l) ≠ "" →
        ("# " ++ pyStripNl l) ∈ mkEditBufferLines sessionHistory histfileLines) := by
  constructor
  · intro hne l hl hnb
    rw [mkEditBufferLines, if_neg hne]
    refine List.mem_map.mpr ⟨l, hl, ?_⟩
    rw [editCommentLine]
    simp only [if_pos hnb]
  · intro he l hl hnb
    rw [mkEditBufferLines, if_pos he]
    refine List.mem_map.mpr ⟨l, hl, ?_⟩
    rw [editCommentLine]
    simp only [if_pos hnb]

/-- C2, witness for the amended theorem at concrete histories: a non-empty
session history gets its line commented, and an empty one gets the
persisted file's line commented. -/
theorem c2_edit_serialize_commented_witness :
    ("# x = 1") ∈ mkEditBufferLines ["x = 1"] ["old\n"] ∧
      ("# old") ∈ mkEditBufferLines [] ["old\n"] :=
  ⟨by
    have h := (c2_edit_serialize_commented ["x = 1"] ["old\n"]).1
      (by decide) "x = 1" (by decide) (by decide)
    simpa using h,
   by
    have h := (c2_edit_serialize_commented [] ["old\n"]).2
      rfl "old\n" (by decide) (by decide)
    simpa using h⟩

/-- C8 (code bug): `_doc_to_usage` prints `blue(method.__doc__.strip())`
*without* `.format(config=config)`: for `toggle_auto_indent` invoked with
`-h`, the help text shown is the raw docstring still containing the
literal placeholder, and differs from the placeholder-substituted text the
documentation contract requires (the docstrings' `{{...}}`-escapes and
`{config.*}` placeholders only make sense under `.format`). -/
theorem c8_doc_to_usage_unformatted :
    docToUsage toggleAutoIndentDoc "-h" =
      .help (blueWrap "\x7bconfig.TOGGLE_AUTO_INDENT_CMD\x7d - Toggles the auto-indentation behavior") ∧
    pyStrip toggleAutoIndentDocFormatted =
      "\\\\ - Toggles the auto-indentation behavior" ∧
    pyStrip toggleAutoIndentDoc ≠ pyStrip toggleAutoIndentDocFormatted := by
  refine ⟨rfl, rfl, ?_⟩
  decide

/-- For a line that is not an import statement, the `state == 0` candidate
construction always produces an actual list: only the import branch can
fall through to `None` or raise. -/
theorem buildMatches_ok_of_not_import (env : CompleterEnv) (text line : String)
    (words : List String)
    (h1 : pyStartsWith line "from " = false)
    (h2 : pyStartsWith line "import " = false) :
    ∃ ms, buildMatches env text line words = .ok (some ms) := by
  rw [buildMatches, if_neg]
  · split
    · exact ⟨_, rfl⟩
    · split
      · exact ⟨_, rfl⟩
      · split
        · exact ⟨_, rfl⟩
        · exact ⟨_, rfl⟩
  · rw [h1, h2]
    simp

/-- C3, counterexample: the completion entry point *can* raise.  On the
line `import os as o` (words `['import','os','as','o']`),
`get_import_matches` falls through every branch and returns `None`;
`complete` then assigns `self.matches = None` and crashes on
`self.matches.append(None)` with an `AttributeError` instead of returning
an empty candidate list. -/
theorem c3_complete_raises_cex :
    complete toyEnv (some []) "o" 0 "import os as o" =
      (none, .error .attributeError) := by
  rfl

/-- C3, amended: `complete` never raises on any call whose line is not an
import-context line (`from ` / `import ` prefix), provided the stored
match list is an actual list (as it is initially and after every
non-crashing call); every lookup failure in the non-import contexts
degrades to an empty or `None` result.  Import-context lines are the
exception: there a malformed statement or a failing module import raises. -/
theorem c3_complete_no_raise_non_import (env : CompleterEnv)
    (m0 : Option (List (Option String))) (stored : List (Option String))
    (text : String) (state : Nat) (line : String)
    (h0 : m0 = some stored)
    (h1 : pyStartsWith line "from " = false)
    (h2 : pyStartsWith line "import " = false) :
    (∃ r, (complete env m0 text state line).2 = .ok r) ∧
      (complete env m0 text state line).1 ≠ none := by
  unfold complete
  by_cases hb : line = "" ∨ pyIsSpaceStr line = true
  · rw [if_pos hb]
    exact ⟨⟨_, rfl⟩, by rw [h0]; exact fun h => Option.noConfusion h⟩
  · rw [if_neg hb]
    by_cases hs : state = 0
    · rw [if_pos hs]
      obtain ⟨ms, hm⟩ := buildMatches_ok_of_not_import env text line (pySplit line) h1 h2
      rw [hm]
      exact ⟨⟨_, rfl⟩, fun h => Option.noConfusion h⟩
    · rw [if_neg hs, h0]
      exact ⟨⟨_, rfl⟩, fun h => Option.noConfusion h⟩

/-- C3, witness: a concrete non-import call returns without raising and
leaves the store intact. -/
theorem c3_complete_no_raise_witness :
    (∃ r, (complete toyEnv (some []) "x" 0 "x").2 = .ok r) ∧
      (complete toyEnv (some []) "x" 0 "x").1 ≠ none :=
  c3_complete_no_raise_non_import toyEnv (some []) [] "x" 0 "x" rfl
    (by decide) (by decide)

/-- C5, counterexample: duplicate non-null candidates.  Under `toyEnv`
(where exception class `D` has two `Exception`-derived bases, so
`__subclasses__` reports it twice) completing `raise <tab>` yields `D` at
both state 2 and state 3. -/
theorem c5_duplicate_candidates_cex :
    complete toyEnv (some []) "" 0 "raise " = (some dupMatches, .ok (some "B")) ∧
    (complete toyEnv (some dupMatches) "" 2 "raise ").2 = .ok (some "D") ∧
    (complete toyEnv (some dupMatches) "" 3 "raise ").2 = .ok (some "D") := by
  refine ⟨rfl, rfl, rfl⟩

/-- C5, amended: whenever a `state = 0` call succeeds and stores a match
list, every sufficiently large state returns null with the store unchanged
— the candidate sequence is finite and terminates in null.  The claim's
further assertion that the non-null entries are duplicate-free does not
hold: the candidate builders do not deduplicate. -/
theorem c5_complete_terminates (env : CompleterEnv)
    (m0 : Option (List (Option String))) (text line : String)
    (m : List (Option String)) (r : Option String)
    (h : complete env m0 text 0 line = (some m, .ok r)) :
    ∃ N, ∀ s, N ≤ s → complete env (some m) text s line = (some m, .ok none) := by
  refine ⟨m.length + 1, ?_⟩
  intro s hs
  have hs0 : s ≠ 0 := by omega
  unfold complete
  by_cases hb : line = "" ∨ pyIsSpaceStr line = true
  · rw [if_pos hb]
    simp [hs0]
  · rw [if_neg hb, if_neg hs0]
    have hlen : m.length ≤ s := by omega
    show (some m, Except.ok (pyIndex m s)) = (some m, Except.ok none)
    rw [pyIndex_ge hlen]

/-- C5, witness for the amended theorem: the `raise <tab>` candidate
sequence under `toyEnv` goes null from state 6 on (and stays null). -/
theorem c5_complete_terminates_witness :
    ∃ N, ∀ s, N ≤ s →
      complete toyEnv (some dupMatches) "" s "raise " =
        (some dupMatches, .ok none) :=
  c5_complete_terminates toyEnv (some []) "" "raise " dupMatches (some "B") rfl

/-- C4, counterexample: the code tests `line.endswith((':','[','{','('))`
— the last *character* — not the last non-whitespace character.  For
`"if True: "` (trailing space; still an incomplete statement to CPython)
the last non-whitespace character is `:` yet the tracked indent does not
grow. -/
theorem c4_push_trailing_space_cex :
    lastNonWsChar "if True: " = some ':' ∧
    (push Ecex pyStateUnit "if True: ").1 = true ∧
    (push Ecex pyStateUnit "if True: ").2.indent ≠
      pyStateUnit.indent ++ oneIndent := by
  refine ⟨rfl, rfl, ?_⟩
  decide

/-- C4, amended: for every line pushed to the executor adapter — if the
push reports the statement still incomplete, the tracked indent grows by
exactly one indent unit when the line's last *character* is one of
`:`, `(`, `[`, `{` and is unchanged otherwise; if the push reports the
statement complete, the tracked indent is reset to empty. -/
theorem c4_push_indent_update {σ : Type} (E : Executor σ) (st : PyState σ)
    (line : String) :
    ((push E st line).1 = true →
      (push E st line).2.indent =
        (if endsWithOpen line then st.indent ++ oneIndent else st.indent)) ∧
    ((push E st line).1 = false → (push E st line).2.indent = "") := by
  cases hE : E (String.intercalate "\n" (st.buffer ++ [line])) with
  | more =>
    constructor
    · intro _
      simp [push, basePush, pyRunsource, hE]
      split <;> simp
    · intro h
      simp [push, basePush, pyRunsource, hE] at h
      revert h
      split <;> simp
  | done err eff =>
    constructor
    · intro h
      simp [push, basePush, pyRunsource, hE] at h
    · intro _
      simp [push, basePush, pyRunsource, hE]

/-- C4, witness: the amended rule at `class Foo:` on a fresh console, plus
the claim's own example — pushing `class Foo:`, `    def m():`,
`        pass`, `""` yields tracked indents of 1, 2, 2 and 0 units. -/
theorem c4_push_indent_update_witness :
    (push E4 pyStateUnit "class Foo:").2.indent = oneIndent ∧
    ((push E4 (push E4 pyStateUnit "class Foo:").2 "    def m():").2.indent
      = oneIndent ++ oneIndent ∧
     ((push E4 (push E4 (push E4 pyStateUnit "class Foo:").2 "    def m():").2
        "        pass").2.indent = oneIndent ++ oneIndent ∧
      (push E4 (push E4 (push E4 (push E4 pyStateUnit "class Foo:").2
        "    def m():").2 "        pass").2 "").2.indent = "")) := by
  refine ⟨?_, by decide, by decide, by decide⟩
  have h := (c4_push_indent_update E4 pyStateUnit "class Foo:").1 (by decide)
  rw [h]
  decide

/-- `String.toList` of a literal list of characters. -/
theorem toList_mk (l : List Char) : (String.mk l).toList = l := rfl

/-- C6, counterexample: the dedent is `self._indent[:-len(ONE_INDENT)]` —
a truncating slice.  When the tracked indent is the two-space string
(adopted from a user who indents by two), a blank line clears it
entirely: two characters are removed, not "exactly one indent unit's
worth" (four). -/
theorem c6_short_indent_cex :
    (cmdHandler Htriv { pyStateUnit with indent := "  " } "").1.indent = "" ∧
    (cmdHandler Htriv { pyStateUnit with indent := "  " } "").2 = "" ∧
    ¬(("  " : String).toList.length =
        ("" : String).toList.length + oneIndent.toList.length) := by
  refine ⟨rfl, rfl, by decide⟩

/-- C6, amended: with auto-indent enabled and a non-empty tracked indent,
a blank input line removes *up to* one indent unit's worth of characters
from the end of the tracked indent — exactly one unit when the indent is
at least one unit long, everything otherwise — and the line handed onward
is the new (dedented) indent string. -/
theorem c6_blank_line_dedent {σ : Type}
    (H : String → String → PyState σ → PyState σ × Option String)
    (st : PyState σ) (line : String)
    (ha : st.autoIndent = true) (hi : st.indent ≠ "")
    (hb : pyStrip line = "") :
    (cmdHandler H st line).1.indent =
        pySliceDropLast oneIndent.toList.length st.indent ∧
    (cmdHandler H st line).2 =
        pySliceDropLast oneIndent.toList.length st.indent ∧
    (pySliceDropLast oneIndent.toList.length st.indent).toList.length =
        st.indent.toList.length - oneIndent.toList.length := by
  have hall := (pyStrip_eq_empty_iff line).mp hb
  have hcm := cmdMatch_eq_none_of_blank hall
  have hdoc : pyEndsWith line docCmd = false :=
    pyEndsWith_false_of_blank line docCmd '?' [] hall rfl (by decide)
  unfold cmdHandler
  rw [hcm]
  simp only [hdoc, Bool.false_eq_true, if_false]
  rw [if_pos ⟨ha, Or.inr hi⟩, if_neg (fun hcon => hcon hb)]
  refine ⟨rfl, rfl, ?_⟩
  simp only [pySliceDropLast, toList_mk, List.length_take]
  omega

/-- C6, witness for the amended theorem: a blank line on a two-unit
indent dedents to one unit and hands the one-unit indent onward. -/
theorem c6_blank_line_dedent_witness :
    (cmdHandler Htriv { pyStateUnit with indent := "        " } "").1.indent
        = "    " ∧
    (cmdHandler Htriv { pyStateUnit with indent := "        " } "").2
        = "    " := by
  have h := c6_blank_line_dedent Htriv { pyStateUnit with indent := "        " }
    "" rfl (by decide) rfl
  exact ⟨by rw [h.1]; rfl, by rw [h.2.1]; rfl⟩

/-- C7: a line that matches no special command and ends in exactly one doc
trigger is rewritten — after `rstrip('?.(')` — to `dir()` when the
remainder is empty, to `help("k")` when the remainder is a reserved
keyword `k`, and to `print(X.__doc__)` otherwise; the console state is
untouched and the rewritten line is what the router hands onward for
execution. -/
theorem c7_doc_cmd_rewrite {σ : Type}
    (H : String → String → PyState σ → PyState σ × Option String)
    (st : PyState σ) (line : String)
    (h1 : cmdMatch line = none)
    (h2 : pyEndsWith line docCmd = true)
    (h3 : pyEndsWith line (docCmd ++ docCmd) = false) :
    (cmdHandler H st line).1 = st ∧
    (cmdHandler H st line).2 =
      (if pyRstripChars (docCmd ++ ".(") line = "" then "dir()"
       else if pyIsKeyword (pyRstripChars (docCmd ++ ".(") line) then
         "help(\"" ++ pyRstripChars (docCmd ++ ".(") line ++ "\")"
       else "print(" ++ pyRstripChars (docCmd ++ ".(") line ++ ".__doc__)") := by
  unfold cmdHandler
  rw [h1]
  simp only [h2, if_true, h3, Bool.false_eq_true, if_false]
  exact ⟨trivial, trivial⟩

/-- C7, witness: `str?` becomes `print(str.__doc__)`, the keyword line
`if?` becomes `help("if")`, and a bare `?` becomes `dir()`. -/
theorem c7_doc_cmd_rewrite_witness :
    (cmdHandler Htriv pyStateUnit "str?").2 = "print(str.__doc__)" ∧
    (cmdHandler Htriv pyStateUnit "if?").2 = "help(\"if\")" ∧
    (cmdHandler Htriv pyStateUnit "?").2 = "dir()" := by
  refine ⟨?_, ?_, ?_⟩
  · rw [(c7_doc_cmd_rewrite Htriv pyStateUnit "str?" (by rfl) (by rfl) (by rfl)).2]
    decide
  · rw [(c7_doc_cmd_rewrite Htriv pyStateUnit "if?" (by rfl) (by rfl) (by rfl)).2]
    decide
  · rw [(c7_doc_cmd_rewrite Htriv pyStateUnit "?" (by rfl) (by rfl) (by rfl)).2]
    decide

/-- C10: a `%`-prefixed line that is not a doc-lookup line and not an
auto-indent continuation matches no command trigger; the router writes
`Y U NO LIKE ME?` and returns the line unchanged, so the raw line is
still fed onward to the executor. -/
theorem c10_percent_passthrough {σ : Type}
    (H : String → String → PyState σ → PyState σ × Option String)
    (st : PyState σ) (line : String)
    (h1 : pyStartsWith line "%" = true)
    (h2 : pyEndsWith line docCmd = false)
    (h3 : ¬(st.autoIndent = true ∧ st.indent ≠ "")) :
    (cmdHandler H st line).1 =
        { st with written := st.written ++ ["Y U NO LIKE ME?"] } ∧
    (cmdHandler H st line).2 = line := by
  have hh : line.toList.head? = some '%' :=
    head_eq_of_pyStartsWith line "%" '%' [] h1 rfl
  have hcm := cmdMatch_eq_none_of_head hh (by decide) (by decide)
  have hsw : ¬(pyStartsWith line oneIndent = true) := by
    intro hsw
    have hx := head_eq_of_pyStartsWith line oneIndent ' ' [' ', ' ', ' '] hsw rfl
    rw [hh] at hx
    exact absurd (Option.some.inj hx) (by decide)
  unfold cmdHandler
  rw [hcm]
  simp only [h2, Bool.false_eq_true, if_false]
  rw [if_neg (fun hcon => hcon.2.elim hsw (fun hne => h3 ⟨hcon.1, hne⟩))]
  simp only [h1, if_true]
  exact ⟨trivial, trivial⟩

/-- C10, witness: the line `%magic` on a fresh console. -/
theorem c10_percent_passthrough_witness :
    (cmdHandler Htriv pyStateUnit "%magic").1 =
        { pyStateUnit with written := ["Y U NO LIKE ME?"] } ∧
    (cmdHandler Htriv pyStateUnit "%magic").2 = "%magic" := by
  have h := c10_percent_passthrough Htriv pyStateUnit "%magic" (by rfl) (by rfl)
    (by intro hcon; exact hcon.2 rfl)
  exact ⟨by rw [h.1]; rfl, h.2⟩

/-- One replay step while the error latch is set: the pending-buffer flush
is disabled, so the state changes only by echoing (ghost `written`) and by
capturing the surviving line verbatim into the session history. -/
theorem execStep_of_skip {σ : Type} (E : Executor σ) (q sh pc : Bool)
    (st : PyState σ) (previous stmt : String) (hskip : st.skip = true) :
    execStep E q sh pc (st, previous) stmt =
      (if pyStrip stmt = "" ∧ previous = "" then (st, previous)
       else if pyStartsWith (pyStrip stmt) "#" then
         ((if pc ∧ ¬q then { st with written := st.written ++ ["... " ++ stmt] }
           else st), previous)
       else
         (let st2 := if ¬q then { st with written := st.written ++ ["... " ++ stmt] }
                     else st
          ({ st2 with sessionHistory := st2.sessionHistory ++ [stmt] },
            pyStrip stmt))) := by
  simp only [execStep, hskip]
  split
  · rfl
  · split
    · rfl
    · by_cases hq : q
      · simp [hq, hskip]
      · simp [hq, hskip]

/-- C1: once an executed statement has reported an error (the
`_skip_subsequent` latch is set), the rest of the replay loop pushes
nothing to the executor and leaves the buffer and namespace untouched,
while every subsequent non-comment, non-collapsed line is appended
verbatim to the session history. -/
theorem c1_error_skip_capture {σ : Type} (E : Executor σ) (q sh pc : Bool)
    (stmts : List String) (st : PyState σ) (previous : String)
    (hskip : st.skip = true) :
    (stmts.foldl (execStep E q sh pc) (st, previous)).1.skip = true ∧
    (stmts.foldl (execStep E q sh pc) (st, previous)).1.ns = st.ns ∧
    (stmts.foldl (execStep E q sh pc) (st, previous)).1.submitted = st.submitted ∧
    (stmts.foldl (execStep E q sh pc) (st, previous)).1.buffer = st.buffer ∧
    (stmts.foldl (execStep E q sh pc) (st, previous)).1.sessionHistory =
      st.sessionHistory ++ skipCaptured previous stmts := by
  induction stmts generalizing st previous with
  | nil => simp [skipCaptured, hskip]
  | cons stmt rest ih =>
    rw [List.foldl_cons, execStep_of_skip E q sh pc st previous stmt hskip]
    by_cases h1 : pyStrip stmt = "" ∧ previous = ""
    · rw [if_pos h1]
      have h := ih st previous hskip
      simp only [skipCaptured, if_pos h1]
      exact h
    · rw [if_neg h1]
      by_cases h2 : pyStartsWith (pyStrip stmt) "#" = true
      · rw [if_pos h2]
        by_cases hpq : pc ∧ ¬q
        · rw [if_pos hpq]
          have h := ih { st with written := st.written ++ ["... " ++ stmt] }
            previous hskip
          simp only [skipCaptured, if_neg h1, if_pos h2]
          exact h
        · rw [if_neg hpq]
          have h := ih st previous hskip
          simp only [skipCaptured, if_neg h1, if_pos h2]
          exact h
      · rw [if_neg h2]
        simp only [skipCaptured, if_neg h1, if_neg h2]
        by_cases hq : q
        · rw [if_neg (fun hcon => hcon hq)]
          have h := ih { st with sessionHistory := st.sessionHistory ++ [stmt] }
            (pyStrip stmt) hskip
          refine ⟨h.1, h.2.1, h.2.2.1, h.2.2.2.1, ?_⟩
          rw [h.2.2.2.2]
          simp
        · rw [if_pos (fun hcon => absurd hcon hq)]
          have h := ih { st with
              written := st.written ++ ["... " ++ stmt],
              sessionHistory := st.sessionHistory ++ [stmt] }
            (pyStrip stmt) hskip
          refine ⟨h.1, h.2.1, h.2.2.1, h.2.2.2.1, ?_⟩
          rw [h.2.2.2.2]
          simp

/-- C1, witness: the loop theorem applied at a concrete post-error state,
together with the claim's "in particular" scenario run in full: replaying
a file whose first statement `1 + "2"` raises and whose second line is the
assignment `x = 5` leaves the assignment captured verbatim in the session
history while `x` is absent from the namespace and the assignment was
never submitted to the executor. -/
theorem c1_error_skip_capture_witness :
    ((["x = 5\n"].foldl (execStep Ec false false true)
        (stSkip, "1 + \"2\"")).1.skip = true ∧
     (["x = 5\n"].foldl (execStep Ec false false true)
        (stSkip, "1 + \"2\"")).1.ns = stSkip.ns ∧
     (["x = 5\n"].foldl (execStep Ec false false true)
        (stSkip, "1 + \"2\"")).1.submitted = stSkip.submitted ∧
     (["x = 5\n"].foldl (execStep Ec false false true)
        (stSkip, "1 + \"2\"")).1.buffer = stSkip.buffer ∧
     (["x = 5\n"].foldl (execStep Ec false false true)
        (stSkip, "1 + \"2\"")).1.sessionHistory =
       stSkip.sessionHistory ++ skipCaptured "1 + \"2\"" ["x = 5\n"]) ∧
    ((execFromFile Ec ["1 + \"2\"\n", "x = 5\n"] stC false false true).sessionHistory
        = ["1 + \"2\"", "x = 5\n"] ∧
     List.lookup "x"
        (execFromFile Ec ["1 + \"2\"\n", "x = 5\n"] stC false false true).ns = none ∧
     "x = 5" ∉
        (execFromFile Ec ["1 + \"2\"\n", "x = 5\n"] stC false false true).submitted) :=
  ⟨c1_error_skip_capture Ec false false true ["x = 5\n"] stSkip "1 + \"2\"" rfl,
   by decide, by decide, by decide⟩

/-- Prepending a line preserves blank-freedom of adjacent pairs when the
line is non-blank or the tail starts non-blank. -/
theorem noTwoBlank_cons {a : String} {l : List String}
    (hl : noTwoBlank l = true) (ha : blankB a = false ∨ headOk l = true) :
    noTwoBlank (a :: l) = true := by
  cases l with
  | nil => rfl
  | cons b t =>
    show (!(blankB a && blankB b) && noTwoBlank (b :: t)) = true
    rw [Bool.and_eq_true]
    refine ⟨?_, hl⟩
    rcases ha with ha | ha
    · rw [ha]
      simp
    · have hb : blankB b = false := by
        have : (!blankB b) = true := ha
        simpa using this
      rw [hb]
      simp

/-- The collapse loop of `resetbuffer` emits no two consecutive blanks,
and emits no leading blank when it starts from a blank `previous`. -/
theorem collapseLines_ok (l : List String) : ∀ (prev : String),
    noTwoBlank (collapseLines prev l) = true ∧
      (prev = "" → headOk (collapseLines prev l) = true) := by
  induction l with
  | nil => exact fun prev => ⟨rfl, fun _ => rfl⟩
  | cons a t ih =>
    intro prev
    by_cases hk : pyStrip a ≠ "" ∨ pyStrip a ≠ prev
    · have hstep : collapseLines prev (a :: t) = a :: collapseLines (pyStrip a) t := by
        simp only [collapseLines]
        rw [if_pos hk]
      rw [hstep]
      by_cases hs : pyStrip a = ""
      · constructor
        · exact noTwoBlank_cons (ih (pyStrip a)).1
            (Or.inr ((ih (pyStrip a)).2 hs))
        · intro hp
          rcases hk with hk | hk
          · exact absurd hs hk
          · rw [hp] at hk
            exact absurd hs hk
      · have hba : blankB a = false := by
          rw [blankB, beq_eq_false_iff_ne]
          exact hs
        constructor
        · exact noTwoBlank_cons (ih (pyStrip a)).1 (Or.inl hba)
        · intro _
          show (!blankB a) = true
          rw [hba]
          rfl
    · push_neg at hk
      have hstep : collapseLines prev (a :: t) = collapseLines (pyStrip a) t := by
        simp only [collapseLines]
        rw [if_neg]
        push_neg
        exact hk
      rw [hstep]
      exact ⟨(ih (pyStrip a)).1, fun _ => (ih (pyStrip a)).2 hk.1⟩

/-- Concatenation preserves blank-freedom when the junction pair is not
two blanks. -/
theorem noTwoBlank_append (h : List String) : ∀ (u : List String),
    noTwoBlank h = true → noTwoBlank u = true →
    (∀ a b, h.getLast? = some a → u.head? = some b →
      blankB a = false ∨ blankB b = false) →
    noTwoBlank (h ++ u) = true := by
  induction h with
  | nil => exact fun u _ hu _ => hu
  | cons a t ih =>
    intro u hh hu hb
    cases t with
    | nil =>
      cases u with
      | nil => rfl
      | cons b v =>
        refine noTwoBlank_cons hu ?_
        rcases hb a b rfl rfl with hx | hx
        · exact Or.inl hx
        · refine Or.inr ?_
          show (!blankB b) = true
          rw [hx]
          rfl
    | cons c t' =>
      have hh2 : (!(blankB a && blankB c)) = true ∧ noTwoBlank (c :: t') = true := by
        have hx : (!(blankB a && blankB c) && noTwoBlank (c :: t')) = true := hh
        exact Bool.and_eq_true_iff.mp hx
      have hh' := hh2.2
      have hpair := hh2.1
      show (!(blankB a && blankB c) && noTwoBlank ((c :: t') ++ u)) = true
      rw [Bool.and_eq_true]
      refine ⟨hpair, ih u hh' hu ?_⟩
      intro x y hx hy
      refine hb x y ?_ hy
      rw [List.getLast?_cons_cons]
      exact hx

/-- Appending a block whose head is non-blank preserves blank-freedom. -/
theorem noTwoBlank_append_headOk (h u : List String)
    (hh : noTwoBlank h = true) (hu : noTwoBlank u = true)
    (hOk : headOk u = true) : noTwoBlank (h ++ u) = true := by
  refine noTwoBlank_append h u hh hu ?_
  intro a b _ hb
  refine Or.inr ?_
  cases u with
  | nil => simp at hb
  | cons x v =>
    have hx : x = b := by simpa using hb
    have hOk' : (!blankB x) = true := hOk
    rw [← hx]
    simpa using hOk'

/-- Appending one non-blank line preserves blank-freedom. -/
theorem noTwoBlank_concat_nonblank (h : List String) (x : String)
    (hh : noTwoBlank h = true) (hx : blankB x = false) :
    noTwoBlank (h ++ [x]) = true := by
  refine noTwoBlank_append h [x] hh rfl ?_
  intro a b _ hb
  have hbx : x = b := by simpa using hb
  rw [← hbx]
  exact Or.inr hx

/-- Appending any line after a non-blank last entry preserves
blank-freedom. -/
theorem noTwoBlank_concat_lastOk (h : List String) (x : String)
    (hh : noTwoBlank h = true) (hl : lastOk h = true) :
    noTwoBlank (h ++ [x]) = true := by
  refine noTwoBlank_append h [x] hh rfl ?_
  intro a b ha _
  refine Or.inl ?_
  rw [lastOk, ha] at hl
  simpa using hl

/-- The last entry after a single append. -/
theorem lastOk_concat (h : List String) (x : String) :
    lastOk (h ++ [x]) = !blankB x := by
  rw [lastOk, List.getLast?_concat]

/-- `resetbuffer` preserves the no-consecutive-blanks invariant of the
session history, for every buffer content. -/
theorem resetbuffer_noTwoBlank {σ : Type} (st : PyState σ)
    (h : noTwoBlank st.sessionHistory = true) :
    noTwoBlank (resetbuffer st).sessionHistory = true := by
  show noTwoBlank (st.sessionHistory ++ collapseLines "" st.buffer) = true
  exact noTwoBlank_append_headOk _ _ h (collapseLines_ok st.buffer "").1
    ((collapseLines_ok st.buffer "").2 rfl)

/-- `push` preserves the no-consecutive-blanks invariant. -/
theorem push_noTwoBlank {σ : Type} (E : Executor σ) (st : PyState σ)
    (line : String) (h : noTwoBlank st.sessionHistory = true) :
    noTwoBlank ((push E st line).2).sessionHistory = true := by
  cases hE : E (String.intercalate "\n" (st.buffer ++ [line])) with
  | more =>
    simp [push, basePush, pyRunsource, hE]
    split <;> exact h
  | done err eff =>
    simp only [push, basePush, pyRunsource, hE]
    exact resetbuffer_noTwoBlank _ h

/-- One replay step before any error: the comment and collapse branches
aside, the pending buffer is flushed when an unindented nonempty line
arrives, and the line goes to the buffer — or, if that very flush raised,
to the session history. -/
theorem execStep_of_active {σ : Type} (E : Executor σ) (q sh pc : Bool)
    (st : PyState σ) (previous stmt : String) (hskip : st.skip = false)
    (h1 : ¬(pyStrip stmt = "" ∧ previous = ""))
    (h2 : pyStartsWith (pyStrip stmt) "#" = false) :
    execStep E q sh pc (st, previous) stmt =
      (let line := pyStripNl stmt
       let st1 :=
         if flushTrigger line then
           match E (String.intercalate "\n" st.buffer) with
           | .more =>
             { st with submitted :=
                 st.submitted ++ [String.intercalate "\n" st.buffer] }
           | .done err eff =>
             resetbuffer { st with
               submitted := st.submitted ++ [String.intercalate "\n" st.buffer],
               ns := eff st.ns, skip := err }
         else st
       let st2 :=
         if ¬q then { st1 with written := st1.written ++ ["... " ++ stmt] }
         else st1
       if st2.skip = true then
         ({ st2 with sessionHistory := st2.sessionHistory ++ [stmt] },
           pyStrip stmt)
       else
         ({ st2 with buffer := st2.buffer ++ [pyStripNl stmt] }, pyStrip stmt)) := by
  by_cases hfl : flushTrigger (pyStripNl stmt)
  · cases hE : E (String.intercalate "\n" st.buffer) with
    | more => simp [execStep, pyRunsource, hskip, h1, h2, hfl, hE]
    | done err eff => simp [execStep, pyRunsource, hskip, h1, h2, hfl, hE]
  · simp [execStep, pyRunsource, hskip, h1, h2, hfl]

/-- Appending one captured line in skip mode keeps the history invariant:
the line is either non-blank, or blank with a non-blank last entry. -/
theorem histInv_append_skip {σ : Type} (st' : PyState σ) (stmt : String)
    (hh : noTwoBlank st'.sessionHistory = true)
    (hcase : blankB stmt = false ∨
      (blankB stmt = true ∧ lastOk st'.sessionHistory = true)) :
    histInv { st' with sessionHistory := st'.sessionHistory ++ [stmt] }
      (pyStrip stmt) := by
  constructor
  · show noTwoBlank (st'.sessionHistory ++ [stmt]) = true
    rcases hcase with hbs | ⟨hbs, hlast⟩
    · exact noTwoBlank_concat_nonblank _ _ hh hbs
    · exact noTwoBlank_concat_lastOk _ _ hh hlast
  · intro _ hprev
    show lastOk (st'.sessionHistory ++ [stmt]) = true
    rw [lastOk_concat]
    have hb : blankB stmt = false := by
      rw [blankB, beq_eq_false_iff_ne]
      exact hprev
    rw [hb]
    rfl

/-- Every iteration of the replay loop preserves the history invariant. -/
theorem execStep_histInv {σ : Type} (E : Executor σ) (q sh pc : Bool)
    (st : PyState σ) (previous stmt : String)
    (hI : histInv st previous) :
    histInv (execStep E q sh pc (st, previous) stmt).1
            (execStep E q sh pc (st, previous) stmt).2 := by
  by_cases h1 : pyStrip stmt = "" ∧ previous = ""
  · have hstep : execStep E q sh pc (st, previous) stmt = (st, previous) := by
      simp only [execStep]
      rw [if_pos h1]
    rw [hstep]
    exact hI
  · by_cases h2 : pyStartsWith (pyStrip stmt) "#" = true
    · have hstep : execStep E q sh pc (st, previous) stmt =
          ((if pc ∧ ¬q then { st with written := st.written ++ ["... " ++ stmt] }
            else st), previous) := by
        simp only [execStep]
        rw [if_neg h1, if_pos h2]
      rw [hstep]
      by_cases hpq : pc ∧ ¬q
      · rw [if_pos hpq]
        exact ⟨hI.1, hI.2⟩
      · rw [if_neg hpq]
        exact hI
    · have h2' : pyStartsWith (pyStrip stmt) "#" = false := by
        cases hx : pyStartsWith (pyStrip stmt) "#"
        · rfl
        · exact absurd hx h2
      cases hsk : st.skip with
      | true =>
        rw [execStep_of_skip E q sh pc st previous stmt hsk, if_neg h1]
        simp only [h2', Bool.false_eq_true, if_false]
        have hcase : blankB stmt = false ∨
            (blankB stmt = true ∧ lastOk st.sessionHistory = true) := by
          cases hbs : blankB stmt
          · exact Or.inl rfl
          · refine Or.inr ⟨rfl, ?_⟩
            have hps : pyStrip stmt = "" := by rwa [blankB, beq_iff_eq] at hbs
            have hprev : previous ≠ "" := fun hp => h1 ⟨hps, hp⟩
            exact hI.2 hsk hprev
        by_cases hq : ¬q
        · rw [if_pos hq]
          exact histInv_append_skip _ stmt hI.1 hcase
        · rw [if_neg hq]
          exact histInv_append_skip _ stmt hI.1 hcase
      | false =>
        rw [execStep_of_active E q sh pc st previous stmt hsk h1 h2']
        dsimp only
        have hnot : ¬(st.skip = true) := by
          rw [hsk]
          exact Bool.false_ne_true
        by_cases hfl : flushTrigger (pyStripNl stmt)
        · rw [if_pos hfl]
          have hbs : blankB stmt = false := by
            obtain ⟨hne, hnsp⟩ := hfl
            rw [blankB, beq_eq_false_iff_ne]
            refine pyStrip_ne_empty_of_head hne ?_
            cases hx : pyIsSpace ((pyStripNl stmt).toList.headD ' ')
            · rfl
            · exact absurd hx hnsp
          cases hE : E (String.intercalate "\n" st.buffer) with
          | more =>
            dsimp only
            split_ifs
            all_goals
              first
              | (rename_i hsk2
                 exact absurd (show st.skip = true from hsk2) hnot)
              | exact ⟨hI.1, fun habs _ => absurd (show st.skip = true from habs) hnot⟩
          | done err eff =>
            dsimp only
            have hreset : noTwoBlank
                (st.sessionHistory ++ collapseLines "" st.buffer) = true :=
              noTwoBlank_append_headOk _ _ hI.1 (collapseLines_ok st.buffer "").1
                ((collapseLines_ok st.buffer "").2 rfl)
            split_ifs
            all_goals
              first
              | (refine ⟨?_, ?_⟩
                 · exact noTwoBlank_concat_nonblank _ _ hreset hbs
                 · intro _ _
                   show lastOk ((st.sessionHistory ++ collapseLines "" st.buffer)
                     ++ [stmt]) = true
                   rw [lastOk_concat, hbs]
                   rfl)
              | (rename_i hsk2
                 exact ⟨hreset, fun habs _ => absurd habs hsk2⟩)
        · rw [if_neg hfl]
          split_ifs
          all_goals
            first
            | (rename_i hsk2
               exact absurd (show st.skip = true from hsk2) hnot)
            | exact ⟨hI.1, fun habs _ => absurd (show st.skip = true from habs) hnot⟩

/-- The whole replay loop preserves the history invariant. -/
theorem foldl_histInv {σ : Type} (E : Executor σ) (q sh pc : Bool)
    (stmts : List String) :
    ∀ (st : PyState σ) (previous : String), histInv st previous →
      histInv (stmts.foldl (execStep E q sh pc) (st, previous)).1
              (stmts.foldl (execStep E q sh pc) (st, previous)).2 := by
  induction stmts with
  | nil => exact fun st previous hI => hI
  | cons stmt rest ih =>
    intro st previous hI
    rw [List.foldl_cons]
    have hstep := execStep_histInv E q sh pc st previous stmt hI
    have hrec := ih (execStep E q sh pc (st, previous) stmt).1
      (execStep E q sh pc (st, previous) stmt).2 hstep
    simpa using hrec

/-- C9: the session history never acquires two consecutive blank entries.
Both appending operations preserve the invariant — `resetbuffer` (the
buffer flush after execution, which collapses blank runs and drops a
leading blank), `push` (which appends only through `resetbuffer`), and a
whole `_exec_from_file` replay (whose skip-mode capture appends a blank
only directly after the non-blank line that preceded it). -/
theorem c9_history_no_consecutive_blanks :
    (∀ (σ : Type) (st : PyState σ), noTwoBlank st.sessionHistory = true →
        noTwoBlank (resetbuffer st).sessionHistory = true) ∧
    (∀ (σ : Type) (E : Executor σ) (st : PyState σ) (line : String),
        noTwoBlank st.sessionHistory = true →
        noTwoBlank ((push E st line).2).sessionHistory = true) ∧
    (∀ (σ : Type) (E : Executor σ) (stmts : List String) (st : PyState σ)
        (q sh pc : Bool), noTwoBlank st.sessionHistory = true →
        noTwoBlank (execFromFile E stmts st q sh pc).sessionHistory = true) := by
  refine ⟨fun σ st h => resetbuffer_noTwoBlank st h,
          fun σ E st line h => push_noTwoBlank E st line h, ?_⟩
  intro σ E stmts st q sh pc h
  have hI0 : histInv ({ st with skip := false } : PyState σ) "" :=
    ⟨h, fun habs _ => absurd (show false = true from habs) Bool.false_ne_true⟩
  have hfold := foldl_histInv E q sh pc stmts { st with skip := false } "" hI0
  exact push_noTwoBlank E _ "" hfold.1



/-- C9, witness: a buffer with embedded blank runs flushes without
creating consecutive blanks, and a full replay with an error and blank
runs does likewise. -/
theorem c9_history_no_consecutive_blanks_witness :
    noTwoBlank (resetbuffer stBuf).sessionHistory = true ∧
    noTwoBlank (execFromFile Ec ["1 + \"2\"\n", "\n", "\n", "x = 5\n"]
        stC false false true).sessionHistory = true :=
  ⟨c9_history_no_consecutive_blanks.1 (List (String × Nat)) stBuf (by decide),
   c9_history_no_consecutive_blanks.2.2 (List (String × Nat)) Ec
     ["1 + \"2\"\n", "\n", "\n", "x = 5\n"] stC false false true (by decide)⟩
